import Mathlib

/-!
Shallow embedding of `rsts` (`src/main.rs`), a Rust-to-TypeScript type
translator, together with proofs about its normalizer, renderer and
declaration translators.

The embedding mirrors the source:
* `SimpleType`, `SimpleTypeError`, `SimpleField`, `SimpleStruct`,
  `SimpleVariant`, `SimpleEnum`, `NUMERIC_TYPES` are the program's own data
  model.
* `SynType` / `SegList` / `PathArguments` / `ArgList` model the fragment of
  the `syn` crate's type AST that `SimpleType::from_syn_type` consumes (a
  path type with qself flag, leading-colon flag, and per-segment argument
  lists; every non-path type is collapsed into `SynType.notPath` since the
  source treats them uniformly as `TypeIsNotPath`).
* Rust `panic!` / `.unwrap()` failure is modelled by `Option.none` results.
* The `println!` diagnostic for a skipped struct field is modelled by the
  explicit list `SimpleStruct.skippedFields`.
-/

namespace Rsts

/-- Canonical normalized type: a path plus generic arguments (only
meaningful on the final segment). Mirrors `struct SimpleType`. -/
inductive SimpleType where
  | mk (path : List String) (generic_args : List SimpleType)


def SimpleType.path : SimpleType → List String
  | .mk p _ => p

def SimpleType.generic_args : SimpleType → List SimpleType
  | .mk _ g => g

/-- Mirrors `enum SimpleTypeError`. -/
inductive SimpleTypeError where
  | QSelf
  | LeadingColon
  | EarlyGenericArgs
  | InvalidGenericArgType
  | InvalidArgType
  | TypeIsNotPath
deriving DecidableEq, Repr

/-- Mirrors `struct SimpleField`. -/
structure SimpleField where
  name : Option String
  ty : SimpleType


/-- Mirrors `struct SimpleStruct`. -/
structure SimpleStruct where
  name : String
  fields : List SimpleField


/-- Mirrors `struct SimpleVariant`. -/
structure SimpleVariant where
  name : String
  fields : List SimpleType


/-- Mirrors `struct SimpleEnum`. -/
structure SimpleEnum where
  name : String
  variants : List SimpleVariant


/-- Mirrors `const NUMERIC_TYPES: [&str; 10]`. -/
def NUMERIC_TYPES : List String :=
  ["i8", "i16", "i32", "i64", "u8", "u16", "u32", "u64", "f32", "f64"]

mutual
/-- The fragment of `syn::Type` consumed by `SimpleType::from_syn_type`:
either a `Type::Path` (with its qself and leading-colon markers and its
segments) or any other `syn::Type` shape (`notPath`), which the source
rejects uniformly as `TypeIsNotPath`. -/
inductive SynType where
  | path (qself : Bool) (leadingColon : Bool) (segments : SegList)
  | notPath

/-- The ordered segment list of a `syn::Path` (ident plus arguments per
segment). -/
inductive SegList where
  | nil
  | cons (ident : String) (arguments : PathArguments) (rest : SegList)

/-- Mirrors `syn::PathArguments`. -/
inductive PathArguments where
  | none
  | angleBracketed (args : ArgList)
  | parenthesized

/-- The ordered list of `syn::GenericArgument`s of one angle-bracketed
list: a `GenericArgument::Type` carries a type; every other kind
(lifetime, const, binding, ...) is collapsed into `consOther` since the
source rejects them all as `InvalidGenericArgType`. -/
inductive ArgList where
  | nil
  | consType (ty : SynType) (rest : ArgList)
  | consOther (rest : ArgList)
end

/-- Mirrors `syn::PathArguments::is_empty`: `None` is empty, an
angle-bracketed list is empty exactly when it has no arguments, a
parenthesized list is never empty. -/
def PathArguments.isEmpty : PathArguments → Bool
  | .none => true
  | .angleBracketed .nil => true
  | .angleBracketed (.consType _ _) => false
  | .angleBracketed (.consOther _) => false
  | .parenthesized => false

mutual
/-- Mirrors `SimpleType::from_syn_type`: normalize a raw `syn` type into a
`SimpleType`, rejecting non-path shapes, qself, leading colons, generic
arguments on non-final segments, and non-type generic arguments. -/
def SimpleType.from_syn_type : SynType → Except SimpleTypeError SimpleType
  | .notPath => .error .TypeIsNotPath
  | .path qself leadingColon segments =>
    if qself then .error .QSelf
    else if leadingColon then .error .LeadingColon
    else
      match fromSegments segments with
      | .error e => .error e
      | .ok (p, g) => .ok (SimpleType.mk p g)

/-- The segment walk of `from_syn_type`: returns the accumulated path
idents and generic arguments in source order. -/
def fromSegments : SegList → Except SimpleTypeError (List String × List SimpleType)
  | .nil => .ok ([], [])
  | .cons ident arguments rest =>
    let is_last : Bool := match rest with | .nil => true | .cons _ _ _ => false
    if !is_last && !arguments.isEmpty then
      .error .EarlyGenericArgs
    else
      match arguments with
      | .angleBracketed args =>
        match fromArgs args with
        | .error e => .error e
        | .ok ts =>
          match fromSegments rest with
          | .error e => .error e
          | .ok (p, g) => .ok (ident :: p, ts ++ g)
      | .none =>
        match fromSegments rest with
        | .error e => .error e
        | .ok (p, g) => .ok (ident :: p, g)
      | .parenthesized => .error .InvalidArgType

/-- The generic-argument loop of `from_syn_type`: each argument must be a
type argument and is normalized recursively; the first failure wins. -/
def fromArgs : ArgList → Except SimpleTypeError (List SimpleType)
  | .nil => .ok []
  | .consType ty rest =>
    match SimpleType.from_syn_type ty with
    | .error e => .error e
    | .ok a =>
      match fromArgs rest with
      | .error e => .error e
      | .ok as_ => .ok (a :: as_)
  | .consOther _ => .error .InvalidGenericArgType
end

/-- Mirrors Rust's `str::contains(' ')` (with a `char` pattern this is
"some character of the string is a space"), stated over the string's
character list so that it evaluates in the kernel. -/
def strContainsSpace (s : String) : Bool :=
  s.toList.contains ' '

/-- Mirrors `SimpleType::is_datetime_utc`: path is exactly `DateTime` with
one generic argument whose path is exactly `Utc` with no arguments. -/
def SimpleType.is_datetime_utc (t : SimpleType) : Bool :=
  t.path == ["DateTime"] &&
    (match t.generic_args with
     | [a] => a.path == ["Utc"] && a.generic_args.isEmpty
     | _ => false)

/-- Mirrors `SimpleType::to_ts`, the recursive renderer. The match arms
are the source's `if`/`else if` chain in the same priority order:
`Option<T>`, `Vec<T>`, `DateTime<Utc>`, `HashMap<K, V>`, then the
zero-argument single-segment case (numeric primitives, `String`, identity
passthrough), then the `TODO1` / `TODO2` fallbacks. -/
def SimpleType.to_ts : SimpleType → String
  | .mk ["Option"] [a] => a.to_ts ++ " | null"
  | .mk ["Vec"] [a] =>
    (if strContainsSpace a.to_ts then "(" ++ a.to_ts ++ ")" else a.to_ts) ++ "[]"
  | .mk ["DateTime"] [.mk ["Utc"] []] => "DateTimeUtc"
  | .mk ["HashMap"] [k, v] => "Record<" ++ k.to_ts ++ ", " ++ v.to_ts ++ ">"
  | .mk [name] [] =>
    if NUMERIC_TYPES.contains name then "number"
    else if name == "String" then "string"
    else name
  | .mk _ [] => "TODO1"
  | .mk _ (_ :: _) => "TODO2"

/-- One member of a rendered union, as built inside the loop of
`SimpleEnum::to_ts`: a string literal for a unit variant, `{ Name: ty }`
for a single payload, and `{ Name: [ty, ...]` — with no closing brace,
exactly as the source's `format!("  {{ {}: [{}]", ...)` writes it — for
two or more payloads. -/
def SimpleVariant.to_ts_member (v : SimpleVariant) : String :=
  match v.fields with
  | [] => "  \"" ++ v.name ++ "\""
  | [t] => "  \x7b " ++ v.name ++ ": " ++ t.to_ts ++ " \x7d"
  | ts => "  \x7b " ++ v.name ++ ": [" ++ String.intercalate ", " (ts.map SimpleType.to_ts) ++ "]"

/-- Mirrors `SimpleEnum::to_ts`: header line, variant members joined with
`" |\n"`, then `";\n"`. -/
def SimpleEnum.to_ts (e : SimpleEnum) : String :=
  "export type " ++ e.name ++ " =\n" ++
    String.intercalate " |\n" (e.variants.map SimpleVariant.to_ts_member) ++ ";\n"

/-- The member-line loop of `SimpleStruct::to_ts`. The source runs
`f.name.as_ref().unwrap()` on every field; an unnamed field makes that
`unwrap` panic, modelled here as `none`. -/
def renderMembers : List SimpleField → Option String
  | [] => some ""
  | f :: rest =>
    match f.name with
    | Option.none => Option.none
    | some n =>
      match renderMembers rest with
      | Option.none => Option.none
      | some r => some ("  " ++ n ++ ": " ++ f.ty.to_ts ++ ";\n" ++ r)

/-- Mirrors `SimpleStruct::to_ts`. `none` models a panic: the source
panics on an empty struct (`panic!("empty structs not supported")`) and
on an unnamed field in the interface branch (the `unwrap`). Exactly one
unnamed field renders as a type alias; otherwise an interface with one
member line per field. -/
def SimpleStruct.to_ts (s : SimpleStruct) : Option String :=
  match s.fields with
  | [] => Option.none
  | [⟨Option.none, ty⟩] =>
    some ("export type " ++ s.name ++ " = " ++ ty.to_ts ++ ";\n")
  | fs =>
    match renderMembers fs with
    | Option.none => Option.none
    | some m => some ("export interface " ++ s.name ++ " \x7b\n" ++ m ++ "\x7d\n")

mutual
/-- Mirrors `syn::Meta` as produced by `Attribute::parse_meta`: a bare
word, a list `ident(...)`, or a name-value pair. -/
inductive Meta where
  | word (ident : String)
  | list (ident : String) (nested : List NestedMeta)
  | nameValue (ident : String) (value : String)

/-- Mirrors `syn::NestedMeta`: a nested meta item or a literal. -/
inductive NestedMeta where
  | meta (m : Meta)
  | literal
end

/-- Mirrors `syn::Attribute`, reduced to the one observation the source
makes of it: the result of `parse_meta()` (`none` models `Err`). -/
structure Attribute where
  parsedMeta : Option Meta

/-- Mirrors `attr_to_derives`: if the attribute parses as a meta list
whose ident is `derive`, collect the idents of its bare-word children;
otherwise no derives. -/
def attr_to_derives (attr : Attribute) : List String :=
  match attr.parsedMeta with
  | some (.list ident nested) =>
    if ident != "derive" then []
    else
      nested.filterMap (fun child =>
        match child with
        | .meta (.word i) => some i
        | _ => Option.none)
  | _ => []

/-- The derive-collection loop of `SimpleStruct::new`: the concatenation
of `attr_to_derives` over all attributes, in order. -/
def collectDerives (attrs : List Attribute) : List String :=
  attrs.foldl (fun acc a => acc ++ attr_to_derives a) []

/-- Mirrors a `syn::Field`: an optional ident (absent in tuple
structs/variant payloads) and a raw type. -/
structure Field where
  ident : Option String
  ty : SynType

/-- Mirrors `syn::ItemStruct`, reduced to what the source reads: ident,
attributes, fields. -/
structure ItemStruct where
  ident : String
  attrs : List Attribute
  fields : List Field

/-- Mirrors `syn::Variant`, reduced to what the source reads: ident and
payload fields. -/
structure SynVariant where
  ident : String
  fields : List Field

/-- Mirrors `syn::ItemEnum`, reduced to what the source reads: ident and
variants (the source never inspects an enum's attributes). -/
structure ItemEnum where
  ident : String
  attrs : List Attribute
  variants : List SynVariant

/-- Mirrors `SimpleStruct::new`: drop the struct unless its derives
contain `Deserialize` or `Serialize`; then keep each field whose raw type
normalizes (in order) and skip each field that fails, printing a
diagnostic (modelled separately by `SimpleStruct.skippedFields`). -/
def SimpleStruct.new (s : ItemStruct) : Option SimpleStruct :=
  let derives := collectDerives s.attrs
  if !derives.contains "Deserialize" && !derives.contains "Serialize" then
    Option.none
  else
    some ⟨s.ident,
      s.fields.filterMap (fun f =>
        match SimpleType.from_syn_type f.ty with
        | .ok st => some ⟨f.ident, st⟩
        | .error _ => Option.none)⟩

/-- The diagnostics printed by `SimpleStruct::new`'s `println!` for the
skipped fields: one `(field name, error)` pair per field whose raw type
fails normalization, in order. -/
def SimpleStruct.skippedFields (s : ItemStruct) : List (Option String × SimpleTypeError) :=
  s.fields.filterMap (fun f =>
    match SimpleType.from_syn_type f.ty with
    | .ok _ => Option.none
    | .error e => some (f.ident, e))

/-- The inner field loop of `SimpleEnum::from_syn_type`: normalize every
payload type of one variant; any failure drops the whole enum (`none`). -/
def variantTypes : List Field → Option (List SimpleType)
  | [] => some []
  | f :: rest =>
    match SimpleType.from_syn_type f.ty with
    | .ok t =>
      match variantTypes rest with
      | some ts => some (t :: ts)
      | Option.none => Option.none
    | .error _ => Option.none

/-- The variant loop of `SimpleEnum::from_syn_type`. -/
def variantsFromSyn : List SynVariant → Option (List SimpleVariant)
  | [] => some []
  | v :: rest =>
    match variantTypes v.fields with
    | some ts =>
      match variantsFromSyn rest with
      | some vs => some (SimpleVariant.mk v.ident ts :: vs)
      | Option.none => Option.none
    | Option.none => Option.none

/-- Mirrors `SimpleEnum::from_syn_type`: build every variant, returning
`none` for the whole enum as soon as any payload type fails to
normalize. -/
def SimpleEnum.from_syn_type (e : ItemEnum) : Option SimpleEnum :=
  match variantsFromSyn e.variants with
  | some vs => some ⟨e.ident, vs⟩
  | Option.none => Option.none

/-- A top-level `syn::Item` as dispatched by `SimpleFile::load`: enum,
struct, or anything else (ignored). -/
inductive Item where
  | enumItem (e : ItemEnum)
  | structItem (s : ItemStruct)
  | other

/-- The enum half of `SimpleFile::load`'s item loop. -/
def collectEnums (items : List Item) : List SimpleEnum :=
  items.filterMap (fun i =>
    match i with
    | .enumItem e => SimpleEnum.from_syn_type e
    | _ => Option.none)

/-- The struct half of `SimpleFile::load`'s item loop. -/
def collectStructs (items : List Item) : List SimpleStruct :=
  items.filterMap (fun i =>
    match i with
    | .structItem s => SimpleStruct.new s
    | _ => Option.none)

/-- Mirrors `struct SimpleFile`. -/
structure SimpleFile where
  name : String
  enums : List SimpleEnum
  structs : List SimpleStruct

/-- The pure core of `SimpleFile::load`: collect the translatable enums
and structs of a file's items, in order. -/
def SimpleFile.fromItems (name : String) (items : List Item) : SimpleFile :=
  ⟨name, collectEnums items, collectStructs items⟩

/-- Mirrors `SimpleFile::to_ts`: the file-name comment, every enum's
text, then every struct's text (`none` models a struct-rendering
panic). -/
def SimpleFile.to_ts (f : SimpleFile) : Option String :=
  match f.structs.mapM SimpleStruct.to_ts with
  | Option.none => Option.none
  | some ss =>
    some ("// " ++ f.name ++ "\n" ++
      String.join (f.enums.map SimpleEnum.to_ts) ++ String.join ss)

/-- Induction principle for `SegList` alone (the autogenerated recursor
is mutual with the other raw-syntax types, which the `induction` tactic
cannot use directly). -/
def SegList.inductionOn {motive : SegList → Prop}
    (h0 : motive .nil)
    (h1 : ∀ ident arguments rest, motive rest → motive (.cons ident arguments rest)) :
    ∀ s, motive s
  | .nil => h0
  | .cons i a r => h1 i a r (SegList.inductionOn h0 h1 r)

/-- Some segment other than the last carries a non-empty argument list
(in the sense of `PathArguments.isEmpty`): the exact condition under
which the source's segment walk raises `EarlyGenericArgs`. -/
def SegList.hasEarlyArgs : SegList → Bool
  | .nil => false
  | .cons _ arguments rest =>
    match rest with
    | .nil => false
    | .cons _ _ _ => !arguments.isEmpty || rest.hasEarlyArgs

/-- A `SimpleType` is matched by one of the five specific rendering rules
of `SimpleType::to_ts` (optional wrapper, sequence wrapper, timestamp,
associative map, zero-argument single-segment path); everything else
falls to the `TODO1` / `TODO2` placeholders. -/
def matchesRenderRule (t : SimpleType) : Bool :=
  (t.path == ["Option"] && t.generic_args.length == 1) ||
  (t.path == ["Vec"] && t.generic_args.length == 1) ||
  t.is_datetime_utc ||
  (t.path == ["HashMap"] && t.generic_args.length == 2) ||
  (t.generic_args.isEmpty && t.path.length == 1)

theorem fromSegments_cons_early (ident : String) (arguments : PathArguments)
    (i : String) (a : PathArguments) (r : SegList)
    (h : arguments.isEmpty = false) :
    fromSegments (.cons ident arguments (.cons i a r)) = .error .EarlyGenericArgs := by
  cases arguments with
  | none => simp [PathArguments.isEmpty] at h
  | parenthesized => rfl
  | angleBracketed al =>
    cases al with
    | nil => simp [PathArguments.isEmpty] at h
    | consType ty rest2 => rfl
    | consOther rest2 => rfl

theorem fromSegments_cons_propagate (ident : String) (arguments : PathArguments)
    (i : String) (a : PathArguments) (r : SegList)
    (h : arguments.isEmpty = true)
    (hr : fromSegments (.cons i a r) = .error .EarlyGenericArgs) :
    fromSegments (.cons ident arguments (.cons i a r)) = .error .EarlyGenericArgs := by
  cases arguments with
  | parenthesized => simp [PathArguments.isEmpty] at h
  | none =>
    have hstep : fromSegments (.cons ident .none (.cons i a r)) =
        (match fromSegments (.cons i a r) with
         | .error e => .error e
         | .ok (p, g) => .ok (ident :: p, g)) := rfl
    rw [hstep, hr]
  | angleBracketed al =>
    cases al with
    | consType ty rest2 => simp [PathArguments.isEmpty] at h
    | consOther rest2 => simp [PathArguments.isEmpty] at h
    | nil =>
      have hstep : fromSegments (.cons ident (.angleBracketed .nil) (.cons i a r)) =
          (match fromSegments (.cons i a r) with
           | .error e => .error e
           | .ok (p, g) => .ok (ident :: p, [] ++ g)) := rfl
      rw [hstep, hr]

theorem fromSegments_earlyArgs (segs : SegList) (h : segs.hasEarlyArgs = true) :
    fromSegments segs = .error .EarlyGenericArgs := by
  induction segs using SegList.inductionOn with
  | h0 => exact absurd h (by simp [SegList.hasEarlyArgs])
  | h1 ident arguments rest ih =>
    cases rest with
    | nil => exact absurd h (by simp [SegList.hasEarlyArgs])
    | cons i a r =>
      have h2 : (!arguments.isEmpty || (SegList.cons i a r).hasEarlyArgs) = true := h
      cases hArg : arguments.isEmpty with
      | false => exact fromSegments_cons_early ident arguments i a r hArg
      | true =>
        have h3 : (SegList.cons i a r).hasEarlyArgs = true := by
          rw [hArg] at h2
          simpa using h2
        exact fromSegments_cons_propagate ident arguments i a r hArg (ih h3)

theorem renderMembers_none_of_unnamed : ∀ (fs : List SimpleField),
    (∃ f ∈ fs, f.name = Option.none) → renderMembers fs = Option.none
  | [], h => by simp at h
  | f :: rest, h => by
    rcases h with ⟨g, hg, hname⟩
    rcases List.mem_cons.mp hg with rfl | hgrest
    · simp [renderMembers, hname]
    · cases hn : f.name with
      | none => simp [renderMembers, hn]
      | some n =>
        have hrec := renderMembers_none_of_unnamed rest ⟨g, hgrest, hname⟩
        simp [renderMembers, hn, hrec]

theorem renderMembers_isSome : ∀ (fs : List SimpleField),
    (∀ f ∈ fs, f.name ≠ Option.none) → ∃ m, renderMembers fs = some m
  | [], _ => ⟨"", rfl⟩
  | f :: rest, h => by
    obtain ⟨n, hn⟩ := Option.ne_none_iff_exists'.mp (h f (List.mem_cons_self f rest))
    obtain ⟨m, hm⟩ := renderMembers_isSome rest (fun g hg => h g (List.mem_cons_of_mem f hg))
    exact ⟨"  " ++ n ++ ": " ++ f.ty.to_ts ++ ";\n" ++ m, by simp [renderMembers, hn, hm]⟩

theorem to_ts_interface (ss : SimpleStruct) (hne : ss.fields ≠ [])
    (hnamed : ∀ f ∈ ss.fields, f.name ≠ Option.none) :
    ∃ body, ss.to_ts = some ("export interface " ++ ss.name ++ " \x7b\n" ++ body ++ "\x7d\n") := by
  obtain ⟨nm, fields⟩ := ss
  cases fields with
  | nil => simp at hne
  | cons f rest =>
    obtain ⟨m, hm⟩ := renderMembers_isSome (f :: rest) hnamed
    cases rest with
    | nil =>
      obtain ⟨n, hn⟩ := Option.ne_none_iff_exists'.mp (hnamed f (List.mem_cons_self f []))
      obtain ⟨fn, fty⟩ := f
      cases fn with
      | none => simp at hn
      | some n2 => exact ⟨m, by simp [SimpleStruct.to_ts, hm]⟩
    | cons f2 rest2 => exact ⟨m, by simp [SimpleStruct.to_ts, hm]⟩

theorem new_some_of_marker (s : ItemStruct)
    (hm : "Deserialize" ∈ collectDerives s.attrs ∨ "Serialize" ∈ collectDerives s.attrs) :
    SimpleStruct.new s = some ⟨s.ident,
      s.fields.filterMap (fun f =>
        match SimpleType.from_syn_type f.ty with
        | .ok st => some ⟨f.ident, st⟩
        | .error _ => Option.none)⟩ := by
  rcases hm with hm | hm <;>
    simp [SimpleStruct.new, List.contains, List.elem_iff, hm]

theorem new_none_of_no_marker (s : ItemStruct)
    (hDe : "Deserialize" ∉ collectDerives s.attrs)
    (hSe : "Serialize" ∉ collectDerives s.attrs) :
    SimpleStruct.new s = Option.none := by
  simp [SimpleStruct.new, List.contains, List.elem_iff, hDe, hSe]

theorem variantTypes_none_of_fail : ∀ (fs : List Field),
    (∃ f ∈ fs, ∃ err, SimpleType.from_syn_type f.ty = .error err) →
    variantTypes fs = Option.none
  | [], h => by simp at h
  | f :: rest, h => by
    rcases h with ⟨g, hg, err, herr⟩
    rcases List.mem_cons.mp hg with rfl | hgrest
    · simp [variantTypes, herr]
    · cases hf : SimpleType.from_syn_type f.ty with
      | error e => simp [variantTypes, hf]
      | ok t =>
        have hrec := variantTypes_none_of_fail rest ⟨g, hgrest, err, herr⟩
        simp [variantTypes, hf, hrec]

theorem variantsFromSyn_none_of_fail : ∀ (vs : List SynVariant),
    (∃ v ∈ vs, ∃ f ∈ v.fields, ∃ err, SimpleType.from_syn_type f.ty = .error err) →
    variantsFromSyn vs = Option.none
  | [], h => by simp at h
  | v :: rest, h => by
    rcases h with ⟨w, hw, hfail⟩
    rcases List.mem_cons.mp hw with rfl | hwrest
    · simp [variantsFromSyn, variantTypes_none_of_fail _ hfail]
    · cases hv : variantTypes v.fields with
      | none => simp [variantsFromSyn, hv]
      | some ts =>
        have hrec := variantsFromSyn_none_of_fail rest ⟨w, hwrest, hfail⟩
        simp [variantsFromSyn, hv, hrec]

/-- C1: the declaration translator does NOT emit balanced output for a
multi-payload variant. At a union with one two-payload variant the whole
rendered declaration is `"export type E =\n  \x7b V: [number, string];\n"`:
the payload types are rendered as an ordered tuple in declaration order,
but the object literal's opening brace has no matching closing brace
(the output contains one `{` and zero `}`), so the emitted text is not
syntactically balanced. -/
theorem C1_multi_payload_member_unbalanced :
    SimpleEnum.to_ts ⟨"E", [⟨"V", [.mk ["i32"] [], .mk ["String"] []]⟩]⟩ =
      "export type E =\n  \x7b V: [number, string];\n" ∧
    ¬ (("export type E =\n  \x7b V: [number, string];\n").toList.count '{' =
       ("export type E =\n  \x7b V: [number, string];\n").toList.count '}') :=
  ⟨rfl, by decide⟩

/-- C2: a record that passes the marker filter and has at least one field
whose type fails normalization and at least one that succeeds is still
translated: `SimpleStruct::new` returns the record, its kept fields are
exactly the successfully-normalized fields in declaration order, they are
non-empty, and (when the kept fields are named) the record still renders
as an interface. A single field's normalization failure is never fatal to
the record. -/
theorem C2_field_failure_isolated (s : ItemStruct)
    (hmark : "Deserialize" ∈ collectDerives s.attrs ∨ "Serialize" ∈ collectDerives s.attrs)
    (hfail : ∃ f ∈ s.fields, ∃ err, SimpleType.from_syn_type f.ty = .error err)
    (hok : ∃ f ∈ s.fields, ∃ t, SimpleType.from_syn_type f.ty = .ok t) :
    ∃ ss, SimpleStruct.new s = some ss ∧
      ss.name = s.ident ∧
      ss.fields = s.fields.filterMap (fun f =>
        match SimpleType.from_syn_type f.ty with
        | .ok st => some ⟨f.ident, st⟩
        | .error _ => Option.none) ∧
      ss.fields ≠ [] ∧
      ((∀ f ∈ ss.fields, f.name ≠ Option.none) →
        ∃ body, ss.to_ts = some ("export interface " ++ s.ident ++ " \x7b\n" ++ body ++ "\x7d\n")) := by
  have hnew := new_some_of_marker s hmark
  have hne : s.fields.filterMap (fun f =>
      match SimpleType.from_syn_type f.ty with
      | .ok st => some (⟨f.ident, st⟩ : SimpleField)
      | .error _ => Option.none) ≠ [] := by
    obtain ⟨f, hf, t, ht⟩ := hok
    have hmem : (⟨f.ident, t⟩ : SimpleField) ∈ s.fields.filterMap (fun f =>
        match SimpleType.from_syn_type f.ty with
        | .ok st => some (⟨f.ident, st⟩ : SimpleField)
        | .error _ => Option.none) :=
      List.mem_filterMap.mpr ⟨f, hf, by simp [ht]⟩
    exact List.ne_nil_of_mem hmem
  exact ⟨_, hnew, rfl, rfl, hne, fun hnamed => to_ts_interface _ hne hnamed⟩

/-- Witness for C2: a `derive(Serialize)` struct with a normalizable field
`x: i32` and an unnormalizable field `y` (a non-path type) is still
translated with a non-empty field list. -/
theorem C2_field_failure_isolated_witness :
    ∃ ss, SimpleStruct.new ⟨"S",
        [⟨some (.list "derive" [.meta (.word "Serialize")])⟩],
        [⟨some "x", .path false false (.cons "i32" .none .nil)⟩,
         ⟨some "y", .notPath⟩]⟩ = some ss ∧
      ss.fields ≠ [] := by
  obtain ⟨ss, h1, _, _, h4, _⟩ := C2_field_failure_isolated
    ⟨"S", [⟨some (.list "derive" [.meta (.word "Serialize")])⟩],
      [⟨some "x", .path false false (.cons "i32" .none .nil)⟩, ⟨some "y", .notPath⟩]⟩
    (Or.inr (by decide))
    ⟨⟨some "y", .notPath⟩, by simp, .TypeIsNotPath, rfl⟩
    ⟨⟨some "x", .path false false (.cons "i32" .none .nil)⟩, by simp, .mk ["i32"] [], rfl⟩
  exact ⟨ss, h1, h4⟩

/-- C3 counterexample: the claim says a syntactically present but EMPTY
angle-bracket list on a non-final segment fails with the early-generic-args
error. It does not: `syn::PathArguments::is_empty` treats an empty
angle-bracketed list as empty, so the path `A::<>::B` normalizes
successfully to the two-segment path `["A", "B"]`. -/
theorem C3_empty_early_args_counterexample :
    SimpleType.from_syn_type (.path false false
        (.cons "A" (.angleBracketed .nil) (.cons "B" .none .nil))) =
      .ok (.mk ["A", "B"] []) ∧
    SimpleType.from_syn_type (.path false false
        (.cons "A" (.angleBracketed .nil) (.cons "B" .none .nil))) ≠
      .error .EarlyGenericArgs := by
  refine ⟨rfl, fun h => ?_⟩
  exact Except.noConfusion h

/-- C3 (amended): walking path segments left to right, if any segment
other than the last carries a NON-EMPTY argument list (an angle-bracket
list with at least one argument, or a parenthesized list) — but not a
syntactically present empty angle-bracket list, which counts as no
arguments — the normalizer fails with the early-generic-args error. -/
theorem C3_nonempty_early_args_error (segs : SegList)
    (h : segs.hasEarlyArgs = true) :
    SimpleType.from_syn_type (.path false false segs) = .error .EarlyGenericArgs := by
  have hstep : SimpleType.from_syn_type (.path false false segs) =
      (match fromSegments segs with
       | .error e => .error e
       | .ok (p, g) => .ok (SimpleType.mk p g)) := rfl
  rw [hstep, fromSegments_earlyArgs segs h]

/-- Witness for C3 (amended): `A::<SomeNonPath>::B` — a non-empty
angle-bracket list on the non-final segment — fails with
`EarlyGenericArgs`. -/
theorem C3_nonempty_early_args_error_witness :
    SimpleType.from_syn_type (.path false false
        (.cons "A" (.angleBracketed (.consType .notPath .nil)) (.cons "B" .none .nil))) =
      .error .EarlyGenericArgs :=
  C3_nonempty_early_args_error
    (.cons "A" (.angleBracketed (.consType .notPath .nil)) (.cons "B" .none .nil)) rfl

/-- C4: the sequence wrapper `Vec<T>` renders as `render(T)[]`, with
`render(T)` wrapped in parentheses exactly when it contains a space
character; concretely `Vec<Option<i32>>` renders as `(number | null)[]`
and `Vec<i32>` as `number[]`. -/
theorem C4_vec_rendering (t : SimpleType) :
    SimpleType.to_ts (.mk ["Vec"] [t]) =
      (if strContainsSpace t.to_ts then "(" ++ t.to_ts ++ ")" else t.to_ts) ++ "[]" ∧
    (strContainsSpace t.to_ts = true ↔ ' ' ∈ t.to_ts.toList) ∧
    SimpleType.to_ts (.mk ["Vec"] [.mk ["Option"] [.mk ["i32"] []]]) = "(number | null)[]" ∧
    SimpleType.to_ts (.mk ["Vec"] [.mk ["i32"] []]) = "number[]" := by
  refine ⟨by simp [SimpleType.to_ts], ?_, rfl, rfl⟩
  simp [strContainsSpace, List.contains, List.elem_iff]

/-- C5: the optional wrapper `Option<T>` renders as `render(T) | null`
for every `T`, including when `T` is itself an optional-wrapped or
sequence-wrapped type. -/
theorem C5_option_wrapper_structural (t : SimpleType) :
    SimpleType.to_ts (.mk ["Option"] [t]) = t.to_ts ++ " | null" ∧
    SimpleType.to_ts (.mk ["Option"] [.mk ["Option"] [t]]) =
      (t.to_ts ++ " | null") ++ " | null" ∧
    SimpleType.to_ts (.mk ["Option"] [.mk ["Vec"] [t]]) =
      SimpleType.to_ts (.mk ["Vec"] [t]) ++ " | null" := by
  refine ⟨by simp [SimpleType.to_ts], ?_, ?_⟩ <;> simp [SimpleType.to_ts]

/-- C6: a zero-argument single-segment path renders as `number` when the
segment is one of the ten numeric primitive names, as `string` when it is
`String`, and unchanged otherwise. -/
theorem C6_primitive_rendering (s : String) :
    (s ∈ NUMERIC_TYPES → SimpleType.to_ts (.mk [s] []) = "number") ∧
    SimpleType.to_ts (.mk ["String"] []) = "string" ∧
    (s ∉ NUMERIC_TYPES → s ≠ "String" → SimpleType.to_ts (.mk [s] []) = s) := by
  have hgen : SimpleType.to_ts (.mk [s] []) =
      (if NUMERIC_TYPES.contains s then "number"
       else if s == "String" then "string" else s) := by
    simp [SimpleType.to_ts]
  refine ⟨?_, rfl, ?_⟩
  · intro h
    rw [hgen]
    simp [List.contains, List.elem_iff, h]
  · intro h1 h2
    rw [hgen]
    simp [List.contains, List.elem_iff, beq_iff_eq, h1, h2]

/-- Witness for C6: `i8` renders as `number`, `String` as `string`, and
the non-primitive `MyType` passes through unchanged. -/
theorem C6_primitive_rendering_witness :
    SimpleType.to_ts (.mk ["i8"] []) = "number" ∧
    SimpleType.to_ts (.mk ["String"] []) = "string" ∧
    SimpleType.to_ts (.mk ["MyType"] []) = "MyType" :=
  ⟨(C6_primitive_rendering "i8").1 (by decide),
   (C6_primitive_rendering "i8").2.1,
   (C6_primitive_rendering "MyType").2.2 (by decide) (by decide)⟩

/-- C7: the renderer is a total function (`SimpleType.to_ts` is defined
on every `SimpleType`), and on every shape not matched by a specific
rendering rule it produces one of the two distinct placeholder strings:
`TODO1` for a zero-argument multi-segment path, `TODO2` for any other
unmatched shape. -/
theorem C7_renderer_total_with_placeholders (t : SimpleType)
    (hm : matchesRenderRule t = false) :
    (t.to_ts = if t.generic_args.isEmpty then "TODO1" else "TODO2") ∧
    (t.to_ts = "TODO1" ∨ t.to_ts = "TODO2") ∧
    ("TODO1" : String) ≠ "TODO2" := by
  have h1 : t.to_ts = if t.generic_args.isEmpty then "TODO1" else "TODO2" := by
    rw [SimpleType.to_ts.eq_def]
    split
    · simp [matchesRenderRule, SimpleType.path, SimpleType.generic_args] at hm
    · simp [matchesRenderRule, SimpleType.path, SimpleType.generic_args] at hm
    · simp [matchesRenderRule, SimpleType.is_datetime_utc, SimpleType.path,
        SimpleType.generic_args] at hm
    · simp [matchesRenderRule, SimpleType.path, SimpleType.generic_args] at hm
    · simp [matchesRenderRule, SimpleType.path, SimpleType.generic_args] at hm
    · simp [SimpleType.generic_args]
    · simp [SimpleType.generic_args]
  refine ⟨h1, ?_, by decide⟩
  rw [h1]
  cases t.generic_args.isEmpty <;> simp

/-- Witness for C7: the zero-argument multi-segment path `a::b` and the
unmatched generic shape `Result<i32, String>` each render as one of the
two placeholders. -/
theorem C7_renderer_total_with_placeholders_witness :
    (SimpleType.to_ts (.mk ["a", "b"] []) = "TODO1" ∨
     SimpleType.to_ts (.mk ["a", "b"] []) = "TODO2") ∧
    (SimpleType.to_ts (.mk ["Result"] [.mk ["i32"] [], .mk ["String"] []]) = "TODO1" ∨
     SimpleType.to_ts (.mk ["Result"] [.mk ["i32"] [], .mk ["String"] []]) = "TODO2") :=
  ⟨(C7_renderer_total_with_placeholders (.mk ["a", "b"] []) rfl).2.1,
   (C7_renderer_total_with_placeholders
     (.mk ["Result"] [.mk ["i32"] [], .mk ["String"] []]) rfl).2.1⟩

/-- C8: a record whose derives contain neither `Deserialize` nor
`Serialize` is dropped by `SimpleStruct::new` before translation, and a
file containing it produces exactly the same `SimpleFile` as the file
without it — the record never appears in the output, regardless of its
fields. -/
theorem C8_marker_filter_drops_record (s : ItemStruct) (nm : String)
    (pre post : List Item)
    (hDe : "Deserialize" ∉ collectDerives s.attrs)
    (hSe : "Serialize" ∉ collectDerives s.attrs) :
    SimpleStruct.new s = Option.none ∧
    SimpleFile.fromItems nm (pre ++ Item.structItem s :: post) =
      SimpleFile.fromItems nm (pre ++ post) := by
  have hnew := new_none_of_no_marker s hDe hSe
  refine ⟨hnew, ?_⟩
  simp [SimpleFile.fromItems, collectEnums, collectStructs, List.filterMap_append,
    List.filterMap_cons, hnew]

/-- Witness for C8: a `derive(Clone)` struct with a perfectly normalizable
field is dropped and leaves the file output unchanged. -/
theorem C8_marker_filter_drops_record_witness :
    SimpleStruct.new ⟨"S", [⟨some (.list "derive" [.meta (.word "Clone")])⟩],
        [⟨some "x", .path false false (.cons "i32" .none .nil)⟩]⟩ = Option.none ∧
    SimpleFile.fromItems "lib.rs"
        ([Item.other] ++ Item.structItem ⟨"S", [⟨some (.list "derive" [.meta (.word "Clone")])⟩],
          [⟨some "x", .path false false (.cons "i32" .none .nil)⟩]⟩ :: []) =
      SimpleFile.fromItems "lib.rs" ([Item.other] ++ []) :=
  C8_marker_filter_drops_record
    ⟨"S", [⟨some (.list "derive" [.meta (.word "Clone")])⟩],
      [⟨some "x", .path false false (.cons "i32" .none .nil)⟩]⟩ "lib.rs" [Item.other] []
    (by decide) (by decide)

/-- C9: rendering a record with two or more fields of which at least one
is unnamed reaches the `unwrap` of an absent field name and panics
(modelled as `none`); only the exactly-one-unnamed-field shape is handled
by the type-alias branch. -/
theorem C9_multi_field_unnamed_panics (s : SimpleStruct)
    (h2 : 2 ≤ s.fields.length)
    (hun : ∃ f ∈ s.fields, f.name = Option.none) :
    s.to_ts = Option.none := by
  obtain ⟨nm, fields⟩ := s
  match fields, h2, hun with
  | f1 :: f2 :: rest, _, hun =>
    have hrm := renderMembers_none_of_unnamed (f1 :: f2 :: rest) hun
    obtain ⟨f1n, f1ty⟩ := f1
    cases f1n with
    | none =>
      have hstep : SimpleStruct.to_ts ⟨nm, ⟨Option.none, f1ty⟩ :: f2 :: rest⟩ =
          (match renderMembers (⟨Option.none, f1ty⟩ :: f2 :: rest) with
           | Option.none => Option.none
           | some m => some ("export interface " ++ nm ++ " \x7b\n" ++ m ++ "\x7d\n")) := rfl
      rw [hstep, hrm]
    | some n =>
      have hstep : SimpleStruct.to_ts ⟨nm, ⟨some n, f1ty⟩ :: f2 :: rest⟩ =
          (match renderMembers (⟨some n, f1ty⟩ :: f2 :: rest) with
           | Option.none => Option.none
           | some m => some ("export interface " ++ nm ++ " \x7b\n" ++ m ++ "\x7d\n")) := rfl
      rw [hstep, hrm]

/-- Witness for C9: a two-field struct whose second field is unnamed
panics when rendered. -/
theorem C9_multi_field_unnamed_panics_witness :
    SimpleStruct.to_ts ⟨"P", [⟨some "x", .mk ["i32"] []⟩, ⟨Option.none, .mk ["i32"] []⟩]⟩ =
      Option.none :=
  C9_multi_field_unnamed_panics
    ⟨"P", [⟨some "x", .mk ["i32"] []⟩, ⟨Option.none, .mk ["i32"] []⟩]⟩
    (by decide) ⟨⟨Option.none, .mk ["i32"] []⟩, by simp, rfl⟩

/-- C10: a union any of whose variant payload types fails normalization is
silently dropped whole (`SimpleEnum::from_syn_type` returns `none`),
whereas a record (passing the marker filter) with a failing field is still
translated with just that field skipped, and the skipped field is reported
on the diagnostic channel (the `println!`, modelled by
`SimpleStruct.skippedFields`, which is non-empty). -/
theorem C10_enum_dropped_struct_skips (e : ItemEnum) (s : ItemStruct)
    (he : ∃ v ∈ e.variants, ∃ f ∈ v.fields, ∃ err, SimpleType.from_syn_type f.ty = .error err)
    (hmark : "Deserialize" ∈ collectDerives s.attrs ∨ "Serialize" ∈ collectDerives s.attrs)
    (hsf : ∃ f ∈ s.fields, ∃ err, SimpleType.from_syn_type f.ty = .error err) :
    SimpleEnum.from_syn_type e = Option.none ∧
    (∃ ss, SimpleStruct.new s = some ss ∧
      ss.fields = s.fields.filterMap (fun f =>
        match SimpleType.from_syn_type f.ty with
        | .ok st => some ⟨f.ident, st⟩
        | .error _ => Option.none)) ∧
    SimpleStruct.skippedFields s ≠ [] := by
  refine ⟨?_, ⟨_, new_some_of_marker s hmark, rfl⟩, ?_⟩
  · simp [SimpleEnum.from_syn_type, variantsFromSyn_none_of_fail e.variants he]
  · obtain ⟨f, hf, err, herr⟩ := hsf
    have hmem : (f.ident, err) ∈ SimpleStruct.skippedFields s := by
      unfold SimpleStruct.skippedFields
      exact List.mem_filterMap.mpr ⟨f, hf, by simp [herr]⟩
    exact List.ne_nil_of_mem hmem

/-- Witness for C10: an enum with one non-path payload is dropped whole,
while a `derive(Deserialize)` struct with one non-path field is kept with
a non-empty diagnostic list. -/
theorem C10_enum_dropped_struct_skips_witness :
    SimpleEnum.from_syn_type ⟨"E", [], [⟨"V", [⟨Option.none, .notPath⟩]⟩]⟩ = Option.none ∧
    SimpleStruct.skippedFields ⟨"S",
      [⟨some (.list "derive" [.meta (.word "Deserialize")])⟩],
      [⟨some "x", .path false false (.cons "i32" .none .nil)⟩, ⟨some "y", .notPath⟩]⟩ ≠ [] := by
  obtain ⟨h1, _, h3⟩ := C10_enum_dropped_struct_skips
    ⟨"E", [], [⟨"V", [⟨Option.none, .notPath⟩]⟩]⟩
    ⟨"S", [⟨some (.list "derive" [.meta (.word "Deserialize")])⟩],
      [⟨some "x", .path false false (.cons "i32" .none .nil)⟩, ⟨some "y", .notPath⟩]⟩
    ⟨⟨"V", [⟨Option.none, .notPath⟩]⟩, by simp, ⟨Option.none, .notPath⟩, by simp,
      .TypeIsNotPath, rfl⟩
    (Or.inl (by decide))
    ⟨⟨some "y", .notPath⟩, by simp, .TypeIsNotPath, rfl⟩
  exact ⟨h1, h3⟩

end Rsts
